import Mathlib

/-!
Verification of the photo-masking service core (`main.py`).

Shallow embedding of the request pipeline of the photo-masking API:
mask selection (`get_random_mask`), URL acquisition validation
(`fetch_image_from_url`), the geometric transform and alpha compositing
(`apply_mask`), PNG/base64 encoding (`image_to_base64`), and the two
endpoint orchestrations (`mask_photo_by_url`, `mask_photo_by_upload`).

Python `float` arithmetic (used for the cover-fit scale computation and the
size checks) is modelled exactly as IEEE-754 binary64 with round-to-nearest,
ties-to-even, over `ℚ`: every value arising in the program is in the normal
range, far from overflow and subnormals, so correct rounding of the exact
rational result characterises each operation.
-/

namespace PhotoMask

/-! ## IEEE-754 binary64 model over nonnegative fractions

Every float value arising in this program is nonnegative (image dimensions
and their ratios), so floats are modelled as exact nonnegative fractions
`nu / de` of naturals (denominator positive at every use; fractions are not
normalised, keeping all arithmetic in `ℕ` so definitions evaluate by kernel
reduction). `qval` maps a fraction to its rational value for statements. -/

/-- An exact nonnegative fraction `nu / de` (not necessarily reduced). -/
structure Frac where
  nu : Nat
  de : Nat
deriving DecidableEq

/-- The rational value of a fraction. -/
def qval (q : Frac) : ℚ := (q.nu : ℚ) / (q.de : ℚ)

/-- Exact product of two fractions. -/
def qmul (a b : Frac) : Frac := ⟨a.nu * b.nu, a.de * b.de⟩

/-- Exact quotient of two fractions: `(a.nu / a.de) / (b.nu / b.de)`. -/
def qdiv (a b : Frac) : Frac := ⟨a.nu * b.de, a.de * b.nu⟩

/-- Fuelled floor-log₂: computes `⌊log₂ n⌋` by halving, structurally recursive so it evaluates by
kernel reduction (exact for `1 ≤ n < 2^fuel`; it is used with fuel 4096,
far beyond any value of binary64 arithmetic). -/
def log2p (fuel n : Nat) : Nat :=
  match fuel with
  | 0 => 0
  | f + 1 => if n ≤ 1 then 0 else log2p f (n / 2) + 1

/-- Floor of `log₂` of a positive fraction `q`. For `q ≥ 1` this is
`⌊log₂ ⌊q⌋⌋`; for `0 < q < 1` it is `-(⌊log₂ ((de-1)/nu)⌋ + 1)` (for
`1 ≤ nu < de`, the unique `-k` with `2^(k-1) < de/nu ≤ 2^k` is reached at
`k - 1 = ⌊log₂ ⌊(de-1)/nu⌋⌋`). -/
def floorLog2 (q : Frac) : ℤ :=
  if q.de ≤ q.nu then (log2p 4096 (q.nu / q.de) : ℤ)
  else -((log2p 4096 ((q.de - 1) / q.nu) + 1 : Nat) : ℤ)

/-- Round the fraction `a / b` (with `b > 0`) to a natural number, to
nearest, ties to even. -/
def rhe (a b : Nat) : Nat :=
  let f := a / b
  let r := a % b
  if 2 * r < b then f else if b < 2 * r then f + 1 else if f % 2 = 0 then f else f + 1

/-- The IEEE-754 binary64 value nearest a positive fraction (round to
nearest, ties to even), for values in the normal range: the significand is
the half-even rounding of `q` scaled into `[2^52, 2^53]` by
`2^(52 - ⌊log₂ q⌋)`. Every Python `float` operation returns the correctly
rounded exact result, i.e. exactly this function applied to the exact
fraction value of the operation (all values in this program are far from
overflow and subnormals). -/
def roundToDouble (q : Frac) : Frac :=
  if q.nu = 0 then ⟨0, 1⟩
  else
    let e := floorLog2 q
    if 52 ≤ e then ⟨rhe q.nu (q.de * 2 ^ (e - 52).toNat) * 2 ^ (e - 52).toNat, 1⟩
    else ⟨rhe (q.nu * 2 ^ (52 - e).toNat) q.de, 2 ^ (52 - e).toNat⟩

/-- Python float division `a / b` (correctly rounded, IEEE-754). -/
def floatDiv (a b : Frac) : Frac := roundToDouble (qdiv a b)

/-- Python float multiplication `a * b` (correctly rounded, IEEE-754). -/
def floatMul (a b : Frac) : Frac := roundToDouble (qmul a b)

/-- Python `max(a, b)`: `b` if `a < b`, else `a` (comparison of fraction
values, cross-multiplied). -/
def floatMax (a b : Frac) : Frac :=
  if a.nu * b.de < b.nu * a.de then b else a

/-! ## Pixels and images

`main.py` works on PIL `RGBA` images; an image is its width, height and a
pixel grid (modelled as a total function; only coordinates below the
dimensions are meaningful). -/

/-- One RGBA pixel: four 8-bit channels (values `0..255`). -/
structure RGBA where
  r : Nat
  g : Nat
  b : Nat
  a : Nat
deriving DecidableEq

/-- An RGBA image: dimensions plus pixel grid. -/
structure Img where
  width : Nat
  height : Nat
  pix : Nat → Nat → RGBA

/-- The all-zero (transparent black) pixel, PIL's fill for out-of-bounds
crops and for `Image.new("RGBA", ..., (0, 0, 0, 0))`. -/
def zeroPix : RGBA := ⟨0, 0, 0, 0⟩

/-- Modelled from the spec: `Image.resize(..., LANCZOS)` is PIL library code.
The spec fixes only the output dimensions ("resample the source to
`new_w × new_h` using a high-quality interpolation filter"); pixel values are
taken from the source by coordinate scaling as a stand-in for the
interpolation kernel, which no claim inspects. -/
def resize (img : Img) (w h : Nat) : Img :=
  ⟨w, h, fun x y => img.pix (x * img.width / w) (y * img.height / h)⟩

/-- PIL `Image.crop((l, t, r, b))`: a `(r-l) × (b-t)` image reading pixel
`(l+x, t+y)` from the source, zero-filled outside the source bounds. -/
def crop (img : Img) (l t r b : ℤ) : Img :=
  ⟨(r - l).toNat, (b - t).toNat, fun x y =>
    if 0 ≤ l + x ∧ l + x < img.width ∧ 0 ≤ t + y ∧ t + y < img.height then
      img.pix (l + x).toNat (t + y).toNat
    else zeroPix⟩

/-- PIL `base.paste(img, (0, 0))`: overwrite the top-left `img`-sized region
of `base` with `img`, keeping `base` elsewhere. -/
def paste0 (base img : Img) : Img :=
  ⟨base.width, base.height, fun x y =>
    if x < img.width ∧ y < img.height then img.pix x y else base.pix x y⟩

/-- PIL `img.putalpha(band)`: replace the alpha channel with `band`,
keeping the colour channels. -/
def putalpha (img : Img) (band : Nat → Nat → Nat) : Img :=
  ⟨img.width, img.height, fun x y =>
    ⟨(img.pix x y).r, (img.pix x y).g, (img.pix x y).b, band x y⟩⟩

/-! ## The geometric transform (`apply_mask`, lines 84–105) -/

/-- Python `int()` on a nonnegative float: truncation toward zero, which on
the nonnegative fraction `nu / de` is the floor `nu / de` (ℕ-division). -/
def pyInt (q : Frac) : Nat := q.nu / q.de

/-- A natural number as a float (integers up to `2^53` are exact doubles). -/
def ofNatF (n : Nat) : Frac := ⟨n, 1⟩

/-- Line 89: `scale = max(mask_width / img_width, mask_height / img_height)`
(Python float division and `max`). -/
def cover_scale (iw ih mw mh : Nat) : Frac :=
  floatMax (floatDiv (ofNatF mw) (ofNatF iw)) (floatDiv (ofNatF mh) (ofNatF ih))

/-- Line 90: `new_width = int(img_width * scale)`. -/
def resized_width (iw ih mw mh : Nat) : Nat :=
  pyInt (floatMul (ofNatF iw) (cover_scale iw ih mw mh))

/-- Line 91: `new_height = int(img_height * scale)`. -/
def resized_height (iw ih mw mh : Nat) : Nat :=
  pyInt (floatMul (ofNatF ih) (cover_scale iw ih mw mh))

/-- Line 95: `left = (new_width - mask_width) // 2` (Python `//` is floor
division, also on negatives). -/
def crop_left (newW maskW : Nat) : ℤ := Int.fdiv ((newW : ℤ) - (maskW : ℤ)) 2

/-- The body of `apply_mask` after decoding succeeds with nonzero dimensions
(lines 85–105): cover-fit resize, top-centre crop to the mask size, paste
onto a transparent mask-sized canvas, and replace the alpha channel with the
mask's alpha channel. -/
def applyMaskCore (image mask : Img) : Img :=
  let newWidth := resized_width image.width image.height mask.width mask.height
  let newHeight := resized_height image.width image.height mask.width mask.height
  let resized := resize image newWidth newHeight
  let left : ℤ := crop_left newWidth mask.width
  let top : ℤ := 0
  let cropped := crop resized left top (left + (mask.width : ℤ)) (top + (mask.height : ℤ))
  let output : Img := ⟨mask.width, mask.height, fun _ _ => zeroPix⟩
  let pasted := paste0 output cropped
  putalpha pasted (fun x y => (mask.pix x y).a)

/-! ## Encoder: PNG serialization and base64 (`image_to_base64`, lines 108–113)

`image.save(buffer, format="PNG")` is PIL library code; the spec specifies
it only as a lossless raster codec. `base64.b64encode` is the Python
standard library's RFC 4648 base64 (no line wrapping). Both are modelled
here as executable functions: the PNG codec as an invertible pixel-buffer
serialization, base64 exactly by its RFC definition. -/

/-- The RFC 4648 base64 alphabet. -/
def b64Alphabet : List Char :=
  "ABCDEFGHIJKLMNOPQRSTUVWXYZabcdefghijklmnopqrstuvwxyz0123456789+/".data

/-- The character for a 6-bit group. -/
def b64Char (i : Nat) : Char := b64Alphabet.getD i 'A'

/-- The 6-bit value of an alphabet character. -/
def b64Val (c : Char) : Nat := b64Alphabet.indexOf c

/-- RFC 4648 base64 of a byte list, as `base64.b64encode` produces it:
three bytes become four alphabet characters, a final group of one or two
bytes is padded with `'='`; no line breaks are ever inserted. -/
def b64Encode : List Nat → List Char
  | [] => []
  | [a] => [b64Char (a / 4), b64Char (a % 4 * 16), '=', '=']
  | [a, b] => [b64Char (a / 4), b64Char (a % 4 * 16 + b / 16), b64Char (b % 16 * 4), '=']
  | a :: b :: c :: rest =>
      b64Char (a / 4) :: b64Char (a % 4 * 16 + b / 16) ::
        b64Char (b % 16 * 4 + c / 64) :: b64Char (c % 64) :: b64Encode rest

/-- Base64 decoding of well-formed base64 text (four characters to three
bytes, with `'='` padding ending the text). -/
def b64Decode : List Char → List Nat
  | a :: b :: c :: d :: rest =>
      if c = '=' then [b64Val a * 4 + b64Val b / 16]
      else if d = '=' then
        [b64Val a * 4 + b64Val b / 16, b64Val b % 16 * 16 + b64Val c / 4]
      else
        (b64Val a * 4 + b64Val b / 16) :: (b64Val b % 16 * 16 + b64Val c / 4) ::
          (b64Val c % 4 * 64 + b64Val d) :: b64Decode rest
  | _ => []

/-- Four big-endian bytes of a natural number (exact below `2^32`). -/
def be4 (n : Nat) : List Nat :=
  [n / 2 ^ 24 % 256, n / 2 ^ 16 % 256, n / 2 ^ 8 % 256, n % 256]

/-- The number encoded by four big-endian bytes. -/
def be4Val (b0 b1 b2 b3 : Nat) : Nat :=
  b0 * 2 ^ 24 + b1 * 2 ^ 16 + b2 * 2 ^ 8 + b3

/-- The four channel bytes of a pixel (each channel reduced mod 256; channels
are 8-bit to begin with). -/
def pix4 (p : RGBA) : List Nat := [p.r % 256, p.g % 256, p.b % 256, p.a % 256]

/-- The pixel buffer of an image in row-major order. -/
def pixList (img : Img) : List RGBA :=
  (List.range (img.width * img.height)).map
    (fun i => img.pix (i % img.width) (i / img.width))

/-- Modelled from the spec: PIL's PNG encoder (`image.save(..., format="PNG")`)
is library code; the spec fixes it only as a lossless (losslessly invertible)
raster format. Modelled as a direct serialization of the RGBA pixel buffer:
width and height as four big-endian bytes each, then the row-major pixel
bytes. -/
def encodePng (img : Img) : List Nat :=
  be4 img.width ++ be4 img.height ++ (List.map pix4 (pixList img)).flatten

/-- Group a byte list into RGBA quadruples. -/
def group4 : List Nat → List RGBA
  | r :: g :: b :: a :: rest => ⟨r, g, b, a⟩ :: group4 rest
  | _ => []

/-- Modelled from the spec: the PNG decoder inverting `encodePng` — reads the
two dimensions and rebuilds the pixel grid from the row-major buffer
(transparent black outside bounds). -/
def decodePng (bytes : List Nat) : Option Img :=
  match bytes with
  | b0 :: b1 :: b2 :: b3 :: c0 :: c1 :: c2 :: c3 :: rest =>
      let w := be4Val b0 b1 b2 b3
      let h := be4Val c0 c1 c2 c3
      let pixels := group4 rest
      some ⟨w, h, fun x y => if x < w ∧ y < h then pixels.getD (y * w + x) zeroPix else zeroPix⟩
  | _ => none

/-- Lines 108–113, `image_to_base64`: serialize the image as PNG, then
base64-encode the bytes (the resulting text is pure ASCII, so the
`.decode("utf-8")` step is the identity on characters). -/
def image_to_base64 (img : Img) : List Char := b64Encode (encodePng img)

/-! ## Pipeline outcomes and stages -/

/-- The observable outcome of a request stage: a value, an
`HTTPException(status_code, detail)`, or an uncaught Python exception
(e.g. `ZeroDivisionError`), which the framework surfaces as a 500. -/
inductive Outcome (α : Type) where
  | ok (a : α)
  | httpErr (status : Nat) (detail : String)
  | crash (msg : String)
deriving DecidableEq

/-- The work stages of a request, in the order the handlers run them:
acquisition (URL fetch / upload read), mask selection, source decoding,
geometric transform + compositing, and encoding. -/
inductive Stage where
  | acquire
  | pickMask
  | decode
  | transform
  | encode
deriving DecidableEq

/-- The allow-list `ALLOWED_CONTENT_TYPES` (line 16). -/
def ALLOWED_CONTENT_TYPES : List String :=
  ["image/jpeg", "image/png", "image/webp", "image/gif"]

/-- The limit `MAX_IMAGE_SIZE_MB` (line 15). -/
def MAX_IMAGE_SIZE_MB : ℚ := 10

/-- Lines 136 and 226: `size_mb = n / (1024 * 1024)`. Python divides in
binary64; the division is exact for every realistic length (`n < 2^53`,
power-of-two divisor), and for larger `n` correct rounding is monotone and
`10` is representable, so the comparison against `10` agrees with the exact
rational comparison for all `n`. -/
def sizeMB (n : Nat) : ℚ := (n : ℚ) / (1024 * 1024)

/-! ## URL acquisition (`fetch_image_from_url`, lines 116–150)

Modelled from the received HTTP response on: the network transport itself
(timeouts, connection errors, HTTP status errors, lines 145–150) fails
before any response is available and is outside this embedding. -/

/-- A received HTTP response: optional `content-type` and `content-length`
headers, and the body bytes. -/
structure HttpResponse where
  contentTypeHeader : Option String
  contentLengthHeader : Option Nat
  content : List Nat

/-- The character test of `split(";")[0]`: keep characters before the first
`';'`. -/
def notSemi (c : Char) : Bool := c ≠ ';'

/-- Validation in `fetch_image_from_url` (lines 127–143): take the
content-type header up to the first `';'` (`split(";")[0]`), require it in
the allow-list, then — only if a `content-length` header is present —
reject with 413 when the *declared* length exceeds the limit; finally
return the body bytes. -/
def fetch_image_from_url (r : HttpResponse) : Outcome (List Nat) :=
  let content_type :=
    String.mk (((r.contentTypeHeader.getD "").data).takeWhile notSemi)
  if content_type ∈ ALLOWED_CONTENT_TYPES then
    match r.contentLengthHeader with
    | some n =>
        if MAX_IMAGE_SIZE_MB < sizeMB n then
          Outcome.httpErr 413 "Image exceeds maximum size of 10MB"
        else Outcome.ok r.content
    | none => Outcome.ok r.content
  else Outcome.httpErr 400 ("Unsupported content type: " ++ content_type)

/-! ## The transform stage and orchestration -/

/-- Lines 69–105, `apply_mask`, parametric in the source decoder
(`Image.open` + RGBA conversion is PIL library code; the decoder returns
`none` exactly when the bytes cannot be parsed, line 82). A source with a
zero dimension makes line 89 divide by zero — an uncaught
`ZeroDivisionError`. Returns the stages it ran together with the outcome. -/
def apply_mask (dec : List Nat → Option Img) (buf : List Nat) (mask : Img) :
    List Stage × Outcome Img :=
  match dec buf with
  | none => ([Stage.decode], Outcome.httpErr 400 "Cannot open image")
  | some image =>
      if image.width = 0 ∨ image.height = 0 then
        ([Stage.decode, Stage.transform], Outcome.crash "ZeroDivisionError")
      else
        ([Stage.decode, Stage.transform], Outcome.ok (applyMaskCore image mask))

/-- Lines 60–66, `get_random_mask`: fail with a 500 `HTTPException` when no
mask files exist, otherwise return one of them; `random.choice` is modelled
by the index `k` (reduced mod the catalog size), making the uniform draw a
parameter. -/
def get_random_mask (masks : List (String × Img)) (k : Nat) :
    Outcome (String × Img) :=
  if masks.isEmpty then Outcome.httpErr 500 "No mask files found"
  else Outcome.ok (masks.getD (k % masks.length) ("", ⟨0, 0, fun _ _ => zeroPix⟩))

/-- The success response body (lines 52–56 and 159–164). -/
structure MaskResponse where
  success : Bool
  mask_used : String
  image_data : List Char
  content_type : String

/-- Lines 153–164, `process_image`: pick a random mask, apply it, encode
the result; each stage's failure short-circuits the rest. Returns the run
stages together with the outcome. -/
def process_image (dec : List Nat → Option Img) (buf : List Nat)
    (masks : List (String × Img)) (k : Nat) : List Stage × Outcome MaskResponse :=
  match get_random_mask masks k with
  | Outcome.httpErr s d => ([Stage.pickMask], Outcome.httpErr s d)
  | Outcome.crash m => ([Stage.pickMask], Outcome.crash m)
  | Outcome.ok (name, mask) =>
      match apply_mask dec buf mask with
      | (st, Outcome.ok img) =>
          (Stage.pickMask :: st ++ [Stage.encode],
            Outcome.ok ⟨true, name, image_to_base64 img, "image/png"⟩)
      | (st, Outcome.httpErr s d) => (Stage.pickMask :: st, Outcome.httpErr s d)
      | (st, Outcome.crash m) => (Stage.pickMask :: st, Outcome.crash m)

/-- The `POST /mask-by-url` handler (lines 188–203): fetch first, then
process. -/
def mask_photo_by_url (dec : List Nat → Option Img) (resp : HttpResponse)
    (masks : List (String × Img)) (k : Nat) : List Stage × Outcome MaskResponse :=
  match fetch_image_from_url resp with
  | Outcome.ok buf =>
      let pr := process_image dec buf masks k
      (Stage.acquire :: pr.1, pr.2)
  | Outcome.httpErr s d => ([Stage.acquire], Outcome.httpErr s d)
  | Outcome.crash m => ([Stage.acquire], Outcome.crash m)

/-- The `POST /mask-by-upload` handler (lines 206–235): reject a declared
content type outside the allow-list (no `';'` splitting here), read the
body, reject when the *actual* byte length exceeds the limit, then
process. -/
def mask_photo_by_upload (dec : List Nat → Option Img) (ct : String)
    (contents : List Nat) (masks : List (String × Img)) (k : Nat) :
    List Stage × Outcome MaskResponse :=
  if ct ∈ ALLOWED_CONTENT_TYPES then
    if MAX_IMAGE_SIZE_MB < sizeMB contents.length then
      ([Stage.acquire], Outcome.httpErr 413 "Image exceeds maximum size of 10MB")
    else
      let pr := process_image dec contents masks k
      (Stage.acquire :: pr.1, pr.2)
  else ([], Outcome.httpErr 400 ("Unsupported file type: " ++ ct))

/-! ## The spec's rounding, for comparison (claim C4)

The spec describes the resample dimensions as `round(source_dim * scale)`
with rounding to nearest; the following definition states that reading for
comparison with the code's truncation. -/

/-- Rounding a nonnegative fraction to the *nearest* integer
(`⌊q + 1/2⌋`; at the one input where a tie occurs in the comparison below,
1.5, every nearest-rounding tie rule gives 2). This follows the spec's
words, not the code. -/
def spec_round_nearest (q : Frac) : Nat := (2 * q.nu + q.de) / (2 * q.de)

/-! ## Concrete fixtures used by witnesses and counterexamples -/

/-- A 1×1 all-one-pixel source image. -/
def imgW1 : Img := ⟨1, 1, fun _ _ => ⟨10, 20, 30, 40⟩⟩

/-- A decoder that succeeds with `imgW1` on any bytes. -/
def decW1 : List Nat → Option Img := fun _ => some imgW1

/-- A 1×1 mask with alpha 7. -/
def maskW1 : Img := ⟨1, 1, fun _ _ => ⟨255, 255, 255, 7⟩⟩

/-- The transform output on the 1×1 fixtures. -/
def outW1 : Img := applyMaskCore imgW1 maskW1

/-- An 800×600 source image (the spec's concrete scenario). -/
def img800 : Img := ⟨800, 600, fun _ _ => ⟨1, 2, 3, 255⟩⟩

/-- A 512×768 mask with a non-constant alpha channel. -/
def mask512 : Img := ⟨512, 768, fun x y => ⟨255, 255, 255, (x + y) % 256⟩⟩

/-- A well-typed PNG response with a small body and no content-length. -/
def respPng : HttpResponse := ⟨some "image/png", none, [1, 2, 3]⟩

/-- A body one byte over the 10 MiB limit. -/
def oversizedBody : List Nat := List.replicate (10 * 1024 * 1024 + 1) 0

/-- An over-limit body behind honest headers except a *missing*
content-length. -/
def oversizedResp : HttpResponse := ⟨some "image/png", none, oversizedBody⟩

/-- A response whose content-length header under-reports the oversized
body. -/
def underReportResp : HttpResponse := ⟨some "image/png", some 5, oversizedBody⟩

/-- A response declaring `content-length: 20000000` (the spec's scenario). -/
def declaredBigResp : HttpResponse := ⟨some "image/png", some 20000000, [1]⟩

/-- A body of exactly 10 MiB. -/
def boundaryBody : List Nat := List.replicate (10 * 1024 * 1024) 0

/-- A response declaring exactly the limit. -/
def boundaryResp : HttpResponse := ⟨some "image/png", some (10 * 1024 * 1024), [1]⟩

/-- A response declaring the disallowed type `text/html`. -/
def respHtml : HttpResponse := ⟨some "text/html", none, []⟩

/-- A 1×1 image with distinct channel values, for the encoder round trip. -/
def imgPix1 : Img := ⟨1, 1, fun _ _ => ⟨1, 2, 3, 4⟩⟩

/-! # Theorems -/

/-! ## Helper lemmas -/

/-- The denominator of a rounded double is positive. -/
theorem roundToDouble_de_pos (q : Frac) : 0 < (roundToDouble q).de := by
  unfold roundToDouble
  split
  · exact Nat.one_pos
  · dsimp only
    split
    · exact Nat.one_pos
    · exact Nat.pos_pow_of_pos _ Nat.zero_lt_two

/-- The function `floatMax` computes the maximum of the fraction values (for positive
denominators). -/
theorem qval_floatMax (a b : Frac) (ha : 0 < a.de) (hb : 0 < b.de) :
    qval (floatMax a b) = max (qval a) (qval b) := by
  have ha' : (0 : ℚ) < (a.de : ℚ) := by exact_mod_cast ha
  have hb' : (0 : ℚ) < (b.de : ℚ) := by exact_mod_cast hb
  have key : qval a < qval b ↔ a.nu * b.de < b.nu * a.de := by
    rw [qval, qval, div_lt_div_iff₀ ha' hb']
    constructor
    · intro h; exact_mod_cast h
    · intro h; exact_mod_cast h
  unfold floatMax
  by_cases hab : a.nu * b.de < b.nu * a.de
  · rw [if_pos hab, max_eq_right (le_of_lt (key.mpr hab))]
  · rw [if_neg hab, max_eq_left (le_of_not_lt (fun hc => hab (key.mp hc)))]

/-- The truncation `pyInt` of a nonnegative fraction: it is the greatest integer not
above the value. -/
theorem pyInt_trunc (q : Frac) (hde : 0 < q.de) :
    (pyInt q : ℚ) ≤ qval q ∧ qval q < (pyInt q : ℚ) + 1 := by
  have hde' : (0 : ℚ) < (q.de : ℚ) := by exact_mod_cast hde
  have h1 : q.nu / q.de * q.de ≤ q.nu := Nat.div_mul_le_self _ _
  have h2 : q.nu < (q.nu / q.de + 1) * q.de := by
    calc q.nu = q.de * (q.nu / q.de) + q.nu % q.de := (Nat.div_add_mod q.nu q.de).symm
      _ < q.de * (q.nu / q.de) + q.de := by
          exact Nat.add_lt_add_left (Nat.mod_lt q.nu hde) _
      _ = (q.nu / q.de + 1) * q.de := by ring
  constructor
  · rw [pyInt, qval, le_div_iff₀ hde']
    exact_mod_cast h1
  · rw [pyInt, qval, div_lt_iff₀ hde']
    exact_mod_cast h2

/-- Both size checks compare against the same absolute byte bound:
`n / (1024*1024) > 10` exactly when `n > 10 * 1024 * 1024`. -/
theorem sizeMB_gt_iff (n : Nat) :
    MAX_IMAGE_SIZE_MB < sizeMB n ↔ 10 * 1024 * 1024 < n := by
  rw [MAX_IMAGE_SIZE_MB, sizeMB, lt_div_iff₀ (by norm_num : (0 : ℚ) < 1024 * 1024)]
  constructor
  · intro h; exact_mod_cast h
  · intro h; exact_mod_cast h

/-- Splitting with `split(";")[0]` keeps a string with no `';'` intact. -/
theorem takeWhile_notSemi_eq_self (s : String) (h : ';' ∉ s.data) :
    String.mk (s.data.takeWhile notSemi) = s := by
  have : s.data.takeWhile notSemi = s.data := by
    rw [List.takeWhile_eq_self_iff]
    intro c hc
    have : c ≠ ';' := fun he => h (he ▸ hc)
    simp [notSemi, this]
  rw [this]

/-! ## C3: the cover-fit invariant fails in the code's float arithmetic -/

/-- C3 (code bug): for the source 11×11 and mask 15×15, the code computes
`scale = 15/11` rounded to binary64 (which is slightly below `15/11`), and
`int(11 * scale)` evaluates to 14 — strictly below the mask dimension 15 —
so the crop rectangle starts at `left = -1` and exceeds the resampled
bounds, contradicting `new_w ≥ mw ∧ new_h ≥ mh`. -/
theorem cover_fit_violated_at_11x11_15x15 :
    resized_width 11 11 15 15 = 14 ∧ resized_height 11 11 15 15 = 14 ∧
      ¬(15 ≤ resized_width 11 11 15 15) ∧
      crop_left (resized_width 11 11 15 15) 15 = -1 := by
  refine ⟨by decide, by decide, by decide, by decide⟩

/-! ## C4: the code truncates, it does not round to nearest -/

/-- C4 (counterexample): for the source 2×3 and mask 1×1, the scale is
exactly 1/2 and `source_h * scale` is exactly 1.5; the code's
`new_height = int(3 * scale)` is 1, while the spec's rounding to nearest
gives 2. -/
theorem resample_rounding_counterexample :
    resized_height 2 3 1 1 = 1 ∧
      spec_round_nearest (floatMul (ofNatF 3) (cover_scale 2 3 1 1)) = 2 ∧
      (1 : Nat) ≠ 2 := by
  refine ⟨by decide, by decide, by decide⟩

/-- C4 (amended): the transform resamples the source to exactly
`int(source_w * scale) × int(source_h * scale)` pixels where `int`
truncates (the resample dimension is the greatest integer not above the
float product), with `scale = max(mask_w / source_w, mask_h / source_h)`
in binary64 arithmetic, for every source and mask with positive
dimensions. -/
theorem resample_dims_are_truncation (iw ih mw mh : Nat)
    (_hiw : 0 < iw) (_hih : 0 < ih) :
    ((resized_width iw ih mw mh : ℚ) ≤
        qval (floatMul (ofNatF iw) (cover_scale iw ih mw mh)) ∧
      qval (floatMul (ofNatF iw) (cover_scale iw ih mw mh)) <
        (resized_width iw ih mw mh : ℚ) + 1) ∧
    ((resized_height iw ih mw mh : ℚ) ≤
        qval (floatMul (ofNatF ih) (cover_scale iw ih mw mh)) ∧
      qval (floatMul (ofNatF ih) (cover_scale iw ih mw mh)) <
        (resized_height iw ih mw mh : ℚ) + 1) := by
  constructor
  · exact pyInt_trunc _ (roundToDouble_de_pos _)
  · exact pyInt_trunc _ (roundToDouble_de_pos _)

/-- C4 witness: the truncation bounds hold at the 800×600 / 512×768
scenario. -/
theorem resample_dims_are_truncation_witness :
    (0 < 800 ∧ 0 < 600) ∧
    (((resized_width 800 600 512 768 : ℚ) ≤
        qval (floatMul (ofNatF 800) (cover_scale 800 600 512 768)) ∧
      qval (floatMul (ofNatF 800) (cover_scale 800 600 512 768)) <
        (resized_width 800 600 512 768 : ℚ) + 1) ∧
    ((resized_height 800 600 512 768 : ℚ) ≤
        qval (floatMul (ofNatF 600) (cover_scale 800 600 512 768)) ∧
      qval (floatMul (ofNatF 600) (cover_scale 800 600 512 768)) <
        (resized_height 800 600 512 768 : ℚ) + 1)) :=
  ⟨⟨by decide, by decide⟩,
    resample_dims_are_truncation 800 600 512 768 (by decide) (by decide)⟩

/-- The transform output always has the mask's width (by construction of
the final canvas). -/
theorem applyMaskCore_width (image mask : Img) :
    (applyMaskCore image mask).width = mask.width := rfl

/-- The transform output always has the mask's height. -/
theorem applyMaskCore_height (image mask : Img) :
    (applyMaskCore image mask).height = mask.height := rfl

/-- The transform output's alpha channel is the mask's alpha channel. -/
theorem applyMaskCore_alpha (image mask : Img) (x y : Nat) :
    ((applyMaskCore image mask).pix x y).a = (mask.pix x y).a := rfl

/-! ## C5: the 800×600 source / 512×768 mask scenario -/

/-- C5: for an 800×600 source and a 512×768 mask, the computed scale is the
binary64 value of the literal `1.28` (the rounding of `32/25`), the source
is resampled to 1024×768, the crop origin is `(256, 0)` and the crop window
`(256, 0)-(768, 768)`, and the output is 512×768 carrying the mask's alpha
channel pixel for pixel. -/
theorem scenario_800x600_512x768 (img mask : Img)
    (hiw : img.width = 800) (hih : img.height = 600)
    (hmw : mask.width = 512) (hmh : mask.height = 768) :
    cover_scale img.width img.height mask.width mask.height =
      roundToDouble ⟨32, 25⟩ ∧
    resized_width img.width img.height mask.width mask.height = 1024 ∧
    resized_height img.width img.height mask.width mask.height = 768 ∧
    crop_left (resized_width img.width img.height mask.width mask.height)
      mask.width = 256 ∧
    crop_left (resized_width img.width img.height mask.width mask.height)
        mask.width + (mask.width : ℤ) = 768 ∧
    (0 : ℤ) + (mask.height : ℤ) = 768 ∧
    (applyMaskCore img mask).width = 512 ∧
    (applyMaskCore img mask).height = 768 ∧
    ∀ x y, ((applyMaskCore img mask).pix x y).a = (mask.pix x y).a := by
  refine ⟨?_, ?_, ?_, ?_, ?_, ?_, ?_, ?_, fun x y => applyMaskCore_alpha img mask x y⟩
  · rw [hiw, hih, hmw, hmh]; decide
  · rw [hiw, hih, hmw, hmh]; decide
  · rw [hiw, hih, hmw, hmh]; decide
  · rw [hiw, hih, hmw, hmh]; decide
  · rw [hiw, hih, hmw, hmh]; decide
  · rw [hmh]; decide
  · rw [applyMaskCore_width, hmw]
  · rw [applyMaskCore_height, hmh]

/-- C5 witness: the scenario at the concrete fixtures. -/
theorem scenario_800x600_512x768_witness :
    (img800.width = 800 ∧ img800.height = 600 ∧
      mask512.width = 512 ∧ mask512.height = 768) ∧
    (cover_scale img800.width img800.height mask512.width mask512.height =
      roundToDouble ⟨32, 25⟩ ∧
    resized_width img800.width img800.height mask512.width mask512.height = 1024 ∧
    resized_height img800.width img800.height mask512.width mask512.height = 768 ∧
    crop_left (resized_width img800.width img800.height mask512.width mask512.height)
      mask512.width = 256 ∧
    crop_left (resized_width img800.width img800.height mask512.width mask512.height)
        mask512.width + (mask512.width : ℤ) = 768 ∧
    (0 : ℤ) + (mask512.height : ℤ) = 768 ∧
    (applyMaskCore img800 mask512).width = 512 ∧
    (applyMaskCore img800 mask512).height = 768 ∧
    ∀ x y, ((applyMaskCore img800 mask512).pix x y).a = (mask512.pix x y).a) :=
  ⟨⟨rfl, rfl, rfl, rfl⟩,
    scenario_800x600_512x768 img800 mask512 rfl rfl rfl rfl⟩

/-! ## C1: the output always has the mask's dimensions and alpha channel -/

/-- C1: whenever `apply_mask` succeeds, the output's width and height equal
the mask's width and height, and its alpha channel is pixel-for-pixel the
mask's alpha channel (the final `putalpha(mask_alpha)` overwrites every
alpha value with the mask's). -/
theorem apply_mask_output_matches_mask (dec : List Nat → Option Img)
    (buf : List Nat) (mask : Img) (st : List Stage) (out : Img)
    (h : apply_mask dec buf mask = (st, Outcome.ok out)) :
    out.width = mask.width ∧ out.height = mask.height ∧
      ∀ x y, (out.pix x y).a = (mask.pix x y).a := by
  unfold apply_mask at h
  cases hdec : dec buf with
  | none =>
      rw [hdec] at h
      exact absurd (congrArg Prod.snd h) (by simp)
  | some image =>
      rw [hdec] at h
      dsimp only at h
      by_cases hz : image.width = 0 ∨ image.height = 0
      · rw [if_pos hz] at h
        exact absurd (congrArg Prod.snd h) (by simp)
      · rw [if_neg hz] at h
        have hout : Outcome.ok (applyMaskCore image mask) = Outcome.ok out :=
          congrArg Prod.snd h
        have hcore : out = applyMaskCore image mask := by
          cases hout
          rfl
        subst hcore
        exact ⟨rfl, rfl, fun x y => rfl⟩

/-- C1 witness: a successful run on the 1×1 fixtures. -/
theorem apply_mask_output_matches_mask_witness :
    apply_mask decW1 [] maskW1 =
      ([Stage.decode, Stage.transform], Outcome.ok outW1) ∧
    (outW1.width = maskW1.width ∧ outW1.height = maskW1.height ∧
      ∀ x y, (outW1.pix x y).a = (maskW1.pix x y).a) :=
  ⟨rfl, apply_mask_output_matches_mask decW1 [] maskW1
    [Stage.decode, Stage.transform] outW1 rfl⟩

/-! ## C9: the scale computation never divides by zero -/

/-- C9: under the decoder-established precondition that decoded images have
strictly positive width and height, `apply_mask` never reaches the
zero-dimension division (its `ZeroDivisionError` crash outcome is
unreachable; the only failure it can produce is the 400 decode error). -/
theorem apply_mask_no_zero_division (dec : List Nat → Option Img)
    (buf : List Nat) (mask : Img)
    (hdec : ∀ i, dec buf = some i → 0 < i.width ∧ 0 < i.height) (m : String) :
    (apply_mask dec buf mask).2 ≠ Outcome.crash m := by
  unfold apply_mask
  cases hdec' : dec buf with
  | none => simp
  | some image =>
      obtain ⟨hw, hh⟩ := hdec image hdec'
      have hz : ¬(image.width = 0 ∨ image.height = 0) := by omega
      dsimp only
      rw [if_neg hz]
      simp

/-- C9 witness: the 1×1 decoder satisfies the precondition and the crash
branch is not taken. -/
theorem apply_mask_no_zero_division_witness :
    (apply_mask decW1 [] maskW1).2 ≠ Outcome.crash "ZeroDivisionError" :=
  apply_mask_no_zero_division decW1 [] maskW1
    (fun i hi => by
      injection hi with h
      rw [← h]
      exact ⟨Nat.one_pos, Nat.one_pos⟩)
    "ZeroDivisionError"

/-! ## C6: the empty-catalog failure comes after acquisition -/

/-- C6 (counterexample): with an empty mask directory and a well-formed URL
response, the handler returns the 500 `No mask files found` error, but the
trace shows the acquisition stage ran *before* the failing mask pick — the
fetch is line 201, `get_random_mask` only runs inside `process_image`
(line 155). -/
theorem no_masks_after_fetch_counterexample :
    mask_photo_by_url decW1 respPng [] 0 =
      ([Stage.acquire, Stage.pickMask], Outcome.httpErr 500 "No mask files found") ∧
    Stage.acquire ∈ (mask_photo_by_url decW1 respPng [] 0).1 := by
  have h : mask_photo_by_url decW1 respPng [] 0 =
      ([Stage.acquire, Stage.pickMask], Outcome.httpErr 500 "No mask files found") := rfl
  exact ⟨h, by rw [h]; exact List.mem_cons_self _ _⟩

/-- C6 (amended): with an empty mask catalog, every URL request whose fetch
succeeds fails with the 500 `No mask files found` error before any decoding,
transform or encoding work — but after acquisition, which always completes
first on this path. -/
theorem no_masks_fails_before_decode (dec : List Nat → Option Img)
    (resp : HttpResponse) (buf : List Nat) (k : Nat)
    (hfetch : fetch_image_from_url resp = Outcome.ok buf) :
    mask_photo_by_url dec resp [] k =
      ([Stage.acquire, Stage.pickMask], Outcome.httpErr 500 "No mask files found") ∧
    Stage.decode ∉ (mask_photo_by_url dec resp [] k).1 ∧
    Stage.transform ∉ (mask_photo_by_url dec resp [] k).1 ∧
    Stage.encode ∉ (mask_photo_by_url dec resp [] k).1 := by
  have h : mask_photo_by_url dec resp [] k =
      ([Stage.acquire, Stage.pickMask], Outcome.httpErr 500 "No mask files found") := by
    unfold mask_photo_by_url
    rw [hfetch]
    rfl
  refine ⟨h, ?_, ?_, ?_⟩ <;> rw [h] <;> decide

/-- C6 witness: the amended behaviour at the concrete fixtures. -/
theorem no_masks_fails_before_decode_witness :
    mask_photo_by_url decW1 respPng [] 0 =
      ([Stage.acquire, Stage.pickMask], Outcome.httpErr 500 "No mask files found") ∧
    Stage.decode ∉ (mask_photo_by_url decW1 respPng [] 0).1 ∧
    Stage.transform ∉ (mask_photo_by_url decW1 respPng [] 0).1 ∧
    Stage.encode ∉ (mask_photo_by_url decW1 respPng [] 0).1 :=
  no_masks_fails_before_decode decW1 respPng [1, 2, 3] 0 rfl

/-! ## C2: the URL path never checks the received byte count -/

/-- C2 (counterexample): a response with an allowed content type, *no*
content-length header, and a body one byte over the 10 MiB limit is
returned successfully by `fetch_image_from_url` — no size-exceeded error is
raised, refuting the claim that actually-received bytes are checked. -/
theorem url_oversized_body_accepted_counterexample :
    fetch_image_from_url oversizedResp = Outcome.ok oversizedBody ∧
    oversizedBody.length = 10 * 1024 * 1024 + 1 ∧
    10 * 1024 * 1024 < oversizedBody.length := by
  refine ⟨rfl, ?_, ?_⟩
  · simp only [oversizedBody, List.length_replicate]
  · simp only [oversizedBody, List.length_replicate]
    omega

/-- C2 (amended): on the URL path the size check is applied only to the
declared `content-length` header: a declared length over the limit is
rejected with 413, a declared length at or under the limit is accepted, and
with no header the body is returned regardless of its actual size. -/
theorem url_size_check_is_header_only (r : HttpResponse)
    (hallow : String.mk (((r.contentTypeHeader.getD "").data).takeWhile notSemi)
      ∈ ALLOWED_CONTENT_TYPES) :
    (∀ n, r.contentLengthHeader = some n → 10 * 1024 * 1024 < n →
        fetch_image_from_url r =
          Outcome.httpErr 413 "Image exceeds maximum size of 10MB") ∧
    (∀ n, r.contentLengthHeader = some n → n ≤ 10 * 1024 * 1024 →
        fetch_image_from_url r = Outcome.ok r.content) ∧
    (r.contentLengthHeader = none → fetch_image_from_url r = Outcome.ok r.content) := by
  refine ⟨?_, ?_, ?_⟩
  · intro n hn hgt
    unfold fetch_image_from_url
    rw [if_pos hallow, hn]
    dsimp only
    rw [if_pos ((sizeMB_gt_iff n).mpr hgt)]
  · intro n hn hle
    unfold fetch_image_from_url
    rw [if_pos hallow, hn]
    dsimp only
    rw [if_neg (fun hc => absurd ((sizeMB_gt_iff n).mp hc) (not_lt.mpr hle))]
  · intro hn
    unfold fetch_image_from_url
    rw [if_pos hallow, hn]

/-- C2 witness: a header that under-reports (5 bytes declared) makes the
oversized body pass the check. -/
theorem url_size_check_is_header_only_witness :
    fetch_image_from_url underReportResp = Outcome.ok oversizedBody :=
  (url_size_check_is_header_only underReportResp (by decide)).2.1 5 rfl (by norm_num)

/-! ## C7: the two paths do not validate content types identically -/

/-- C7 (counterexample): the declared content type `"image/png;a"` is
outside the allow-list, so the upload path rejects it with 400 — but the
URL path splits at `';'` first and accepts the same declaration, so the two
paths do not reject every non-allow-listed declared type identically. -/
theorem content_type_paths_differ_counterexample :
    ("image/png;a" ∉ ALLOWED_CONTENT_TYPES) ∧
    mask_photo_by_upload decW1 "image/png;a" [] [] 0 =
      ([], Outcome.httpErr 400 "Unsupported file type: image/png;a") ∧
    fetch_image_from_url ⟨some "image/png;a", none, []⟩ = Outcome.ok [] := by
  exact ⟨by decide, rfl, rfl⟩

/-- C7 (amended): for every declared content type with no `';'` parameter
part, rejection is identical on the two paths: a type outside the
allow-list is rejected with the same error kind (status 400, unsupported
type) by both the upload handler and the URL fetch; and both paths compare
sizes against the same limit (`n/(1024*1024) > 10`, i.e. the same absolute
bound `10*1024*1024`, the upload path applying it to the received bytes and
the URL path to the declared content-length). -/
theorem content_type_and_size_limit_agree (t : String)
    (dec : List Nat → Option Img) (contents : List Nat)
    (masks : List (String × Img)) (k : Nat) (r : HttpResponse)
    (hsemi : ';' ∉ t.data) (hnot : t ∉ ALLOWED_CONTENT_TYPES)
    (hr : r.contentTypeHeader = some t) :
    mask_photo_by_upload dec t contents masks k =
      ([], Outcome.httpErr 400 ("Unsupported file type: " ++ t)) ∧
    fetch_image_from_url r =
      Outcome.httpErr 400 ("Unsupported content type: " ++ t) ∧
    (∀ n : Nat, MAX_IMAGE_SIZE_MB < sizeMB n ↔ 10 * 1024 * 1024 < n) := by
  refine ⟨?_, ?_, sizeMB_gt_iff⟩
  · unfold mask_photo_by_upload
    rw [if_neg hnot]
  · unfold fetch_image_from_url
    rw [hr]
    simp only [Option.getD_some]
    rw [takeWhile_notSemi_eq_self t hsemi, if_neg hnot]

/-- C7 witness: both paths reject `text/html` with status 400. -/
theorem content_type_and_size_limit_agree_witness :
    mask_photo_by_upload decW1 "text/html" [] [] 0 =
      ([], Outcome.httpErr 400 ("Unsupported file type: " ++ "text/html")) ∧
    fetch_image_from_url respHtml =
      Outcome.httpErr 400 ("Unsupported content type: " ++ "text/html") ∧
    (∀ n : Nat, MAX_IMAGE_SIZE_MB < sizeMB n ↔ 10 * 1024 * 1024 < n) :=
  content_type_and_size_limit_agree "text/html" decW1 [] [] 0 respHtml
    (by decide) (by decide) rfl

/-! ## C8: the encoder round trip -/

/-- Decoding an alphabet character inverts encoding a 6-bit group. -/
theorem b64Val_b64Char : ∀ j, j < 64 → b64Val (b64Char j) = j := by decide

/-- No alphabet character is the padding character. -/
theorem b64Char_ne_pad : ∀ j, j < 64 → b64Char j ≠ '=' := by decide

/-- No alphabet character is a newline. -/
theorem b64Char_ne_nl : ∀ j, j < 64 → b64Char j ≠ '\n' := by decide

/-- Base64 decoding inverts base64 encoding on byte lists. -/
theorem b64_roundtrip :
    ∀ (l : List Nat), (∀ b ∈ l, b < 256) → b64Decode (b64Encode l) = l
  | [], _ => rfl
  | [a], h => by
      have ha : a < 256 := h a (List.mem_cons_self a [])
      simp only [b64Encode, b64Decode]
      rw [if_pos (by trivial), b64Val_b64Char _ (by omega),
        b64Val_b64Char _ (by omega)]
      simp only [List.cons.injEq, and_true]
      omega
  | [a, b], h => by
      have ha : a < 256 := h a (List.mem_cons_self a [b])
      have hb : b < 256 := h b (List.mem_cons_of_mem a (List.mem_cons_self b []))
      simp only [b64Encode, b64Decode]
      rw [if_neg (b64Char_ne_pad _ (by omega)), if_pos (by trivial),
        b64Val_b64Char _ (by omega), b64Val_b64Char _ (by omega),
        b64Val_b64Char _ (by omega)]
      simp only [List.cons.injEq, and_true]
      exact ⟨by omega, by omega⟩
  | a :: b :: c :: rest, h => by
      have ha : a < 256 := h a (List.mem_cons_self a _)
      have hb : b < 256 := h b (List.mem_cons_of_mem a (List.mem_cons_self b _))
      have hc : c < 256 :=
        h c (List.mem_cons_of_mem a (List.mem_cons_of_mem b (List.mem_cons_self c _)))
      have ih := b64_roundtrip rest (fun x hx =>
        h x (List.mem_cons_of_mem a (List.mem_cons_of_mem b (List.mem_cons_of_mem c hx))))
      simp only [b64Encode, b64Decode]
      rw [if_neg (b64Char_ne_pad _ (by omega)), if_neg (b64Char_ne_pad _ (by omega)),
        b64Val_b64Char _ (by omega), b64Val_b64Char _ (by omega),
        b64Val_b64Char _ (by omega), b64Val_b64Char _ (by omega), ih]
      simp only [List.cons.injEq, and_true]
      exact ⟨by omega, by omega, by omega⟩

/-- Python `b64encode` inserts no line breaks: the encoded text never contains a
newline. -/
theorem b64Encode_no_newline :
    ∀ (l : List Nat), (∀ b ∈ l, b < 256) → '\n' ∉ b64Encode l
  | [], _ => by simp [b64Encode]
  | [a], h => by
      have ha : a < 256 := h a (List.mem_cons_self a [])
      intro hmem
      simp only [b64Encode, List.mem_cons, List.not_mem_nil, or_false] at hmem
      rcases hmem with h1 | h1 | h1 | h1
      · exact b64Char_ne_nl _ (by omega) h1.symm
      · exact b64Char_ne_nl _ (by omega) h1.symm
      · exact absurd h1 (by decide)
      · exact absurd h1 (by decide)
  | [a, b], h => by
      have ha : a < 256 := h a (List.mem_cons_self a [b])
      have hb : b < 256 := h b (List.mem_cons_of_mem a (List.mem_cons_self b []))
      intro hmem
      simp only [b64Encode, List.mem_cons, List.not_mem_nil, or_false] at hmem
      rcases hmem with h1 | h1 | h1 | h1
      · exact b64Char_ne_nl _ (by omega) h1.symm
      · exact b64Char_ne_nl _ (by omega) h1.symm
      · exact b64Char_ne_nl _ (by omega) h1.symm
      · exact absurd h1 (by decide)
  | a :: b :: c :: rest, h => by
      have ha : a < 256 := h a (List.mem_cons_self a _)
      have hb : b < 256 := h b (List.mem_cons_of_mem a (List.mem_cons_self b _))
      have hc : c < 256 :=
        h c (List.mem_cons_of_mem a (List.mem_cons_of_mem b (List.mem_cons_self c _)))
      have ih := b64Encode_no_newline rest (fun x hx =>
        h x (List.mem_cons_of_mem a (List.mem_cons_of_mem b (List.mem_cons_of_mem c hx))))
      intro hmem
      simp only [b64Encode, List.mem_cons] at hmem
      rcases hmem with h1 | h1 | h1 | h1 | h1
      · exact b64Char_ne_nl _ (by omega) h1.symm
      · exact b64Char_ne_nl _ (by omega) h1.symm
      · exact b64Char_ne_nl _ (by omega) h1.symm
      · exact b64Char_ne_nl _ (by omega) h1.symm
      · exact ih h1

/-- Regrouping the flattened channel bytes recovers the pixel list (with
channels reduced mod 256). -/
theorem group4_flatten :
    ∀ (l : List RGBA), group4 (List.map pix4 l).flatten =
      l.map (fun p => (⟨p.r % 256, p.g % 256, p.b % 256, p.a % 256⟩ : RGBA))
  | [] => rfl
  | p :: rest => by
      show (⟨p.r % 256, p.g % 256, p.b % 256, p.a % 256⟩ : RGBA) ::
          group4 (List.map pix4 rest).flatten =
        (⟨p.r % 256, p.g % 256, p.b % 256, p.a % 256⟩ : RGBA) ::
          List.map (fun p => (⟨p.r % 256, p.g % 256, p.b % 256, p.a % 256⟩ : RGBA)) rest
      rw [group4_flatten rest]

/-- Every byte the PNG serializer emits is below 256. -/
theorem encodePng_bytes_lt (img : Img) : ∀ b ∈ encodePng img, b < 256 := by
  intro b hb
  simp only [encodePng, be4, List.mem_append, List.mem_cons, List.not_mem_nil,
    or_false] at hb
  rcases hb with ((h | h | h | h) | (h | h | h | h)) | h
  · omega
  · omega
  · omega
  · omega
  · omega
  · omega
  · omega
  · omega
  · obtain ⟨l, hl, hbl⟩ := List.mem_flatten.mp h
    obtain ⟨p, _, hp⟩ := List.mem_map.mp hl
    rw [← hp] at hbl
    simp only [pix4, List.mem_cons, List.not_mem_nil, or_false] at hbl
    rcases hbl with h | h | h | h <;> omega

/-- Reading the row-major pixel buffer back at `(x, y)` gives the original
pixel (channels mod 256). -/
theorem pixList_mod_getD (img : Img) (x y : Nat)
    (hx : x < img.width) (hy : y < img.height) :
    ((pixList img).map
        (fun p => (⟨p.r % 256, p.g % 256, p.b % 256, p.a % 256⟩ : RGBA))).getD
      (y * img.width + x) zeroPix =
      ⟨(img.pix x y).r % 256, (img.pix x y).g % 256,
        (img.pix x y).b % 256, (img.pix x y).a % 256⟩ := by
  have hidx : y * img.width + x < img.width * img.height := by
    have h1 : y * img.width + x < (y + 1) * img.width := by
      rw [Nat.succ_mul]
      omega
    have h2 : (y + 1) * img.width ≤ img.height * img.width :=
      Nat.mul_le_mul_right _ (by omega)
    calc y * img.width + x < (y + 1) * img.width := h1
      _ ≤ img.height * img.width := h2
      _ = img.width * img.height := Nat.mul_comm _ _
  have hlen : y * img.width + x <
      ((pixList img).map
        (fun p => (⟨p.r % 256, p.g % 256, p.b % 256, p.a % 256⟩ : RGBA))).length := by
    simp only [pixList, List.length_map, List.length_range]
    exact hidx
  rw [List.getD_eq_getElem?_getD, List.getElem?_eq_getElem hlen, Option.getD_some]
  simp only [List.getElem_map, pixList, List.getElem_range]
  have hmod : (y * img.width + x) % img.width = x := by
    rw [Nat.mul_comm y, Nat.mul_add_mod, Nat.mod_eq_of_lt hx]
  have hdiv : (y * img.width + x) / img.width = y := by
    rw [Nat.mul_comm y, Nat.mul_add_div (by omega), Nat.div_eq_of_lt hx]
    omega
  rw [hmod, hdiv]

/-- The PNG decoder inverts the PNG serializer (channels mod 256). -/
theorem decodePng_encodePng (img : Img)
    (hw : img.width < 2 ^ 32) (hh : img.height < 2 ^ 32) :
    ∃ out, decodePng (encodePng img) = some out ∧
      out.width = img.width ∧ out.height = img.height ∧
      ∀ x y, x < img.width → y < img.height →
        out.pix x y = ⟨(img.pix x y).r % 256, (img.pix x y).g % 256,
          (img.pix x y).b % 256, (img.pix x y).a % 256⟩ := by
  have henc : encodePng img =
      img.width / 2 ^ 24 % 256 :: img.width / 2 ^ 16 % 256 ::
      img.width / 2 ^ 8 % 256 :: img.width % 256 ::
      img.height / 2 ^ 24 % 256 :: img.height / 2 ^ 16 % 256 ::
      img.height / 2 ^ 8 % 256 :: img.height % 256 ::
      (List.map pix4 (pixList img)).flatten := by
    simp only [encodePng, be4, List.cons_append, List.nil_append]
  have hwv : be4Val (img.width / 2 ^ 24 % 256) (img.width / 2 ^ 16 % 256)
      (img.width / 2 ^ 8 % 256) (img.width % 256) = img.width := by
    unfold be4Val
    omega
  have hhv : be4Val (img.height / 2 ^ 24 % 256) (img.height / 2 ^ 16 % 256)
      (img.height / 2 ^ 8 % 256) (img.height % 256) = img.height := by
    unfold be4Val
    omega
  rw [henc]
  refine ⟨_, rfl, ?_, ?_, ?_⟩
  · exact hwv
  · exact hhv
  · intro x y hx hy
    dsimp only
    rw [hwv, hhv, if_pos ⟨hx, hy⟩, group4_flatten]
    exact pixList_mod_getD img x y hx hy

/-- C8: the encoder round trip — base64-decoding the transport text yields
exactly the PNG bytes, decoding those bytes reproduces the original pixel
buffer exactly (dimensions and every in-bounds pixel), and the base64 text
contains no line wrapping. -/
theorem encoder_roundtrip (img : Img)
    (hw : img.width < 2 ^ 32) (hh : img.height < 2 ^ 32)
    (hpx : ∀ x y, x < img.width → y < img.height →
      (img.pix x y).r < 256 ∧ (img.pix x y).g < 256 ∧
      (img.pix x y).b < 256 ∧ (img.pix x y).a < 256) :
    b64Decode (image_to_base64 img) = encodePng img ∧
    (∃ out, decodePng (encodePng img) = some out ∧ out.width = img.width ∧
      out.height = img.height ∧
      ∀ x y, x < img.width → y < img.height → out.pix x y = img.pix x y) ∧
    '\n' ∉ image_to_base64 img := by
  refine ⟨b64_roundtrip _ (encodePng_bytes_lt img), ?_,
    b64Encode_no_newline _ (encodePng_bytes_lt img)⟩
  obtain ⟨out, h1, h2, h3, h4⟩ := decodePng_encodePng img hw hh
  refine ⟨out, h1, h2, h3, fun x y hx hy => ?_⟩
  rw [h4 x y hx hy]
  obtain ⟨hr, hg, hb, ha⟩ := hpx x y hx hy
  rw [Nat.mod_eq_of_lt hr, Nat.mod_eq_of_lt hg, Nat.mod_eq_of_lt hb,
    Nat.mod_eq_of_lt ha]

/-- C8 witness: the round trip at a concrete 1×1 image. -/
theorem encoder_roundtrip_witness :
    b64Decode (image_to_base64 imgPix1) = encodePng imgPix1 ∧
    (∃ out, decodePng (encodePng imgPix1) = some out ∧
      out.width = imgPix1.width ∧ out.height = imgPix1.height ∧
      ∀ x y, x < imgPix1.width → y < imgPix1.height → out.pix x y = imgPix1.pix x y) ∧
    '\n' ∉ image_to_base64 imgPix1 :=
  encoder_roundtrip imgPix1 (by decide) (by decide)
    (fun x y _ _ =>
      ⟨by show (1 : ℕ) < 256; norm_num, by show (2 : ℕ) < 256; norm_num,
        by show (3 : ℕ) < 256; norm_num, by show (4 : ℕ) < 256; norm_num⟩)

/-! ## C10: the size limit is exclusive at the boundary on both paths -/

/-- C10: the upload path rejects with the 413 size error exactly when the
received byte count strictly exceeds `10 * 1024 * 1024` (at or below the
bound, it proceeds to processing), and the URL path rejects with the same
413 error exactly when the declared content-length strictly exceeds the
same bound — so a payload of exactly 10 MiB passes the size check on both
paths. -/
theorem size_limit_boundary_exclusive (dec : List Nat → Option Img)
    (ct : String) (contents : List Nat) (masks : List (String × Img)) (k : Nat)
    (r : HttpResponse) (n : Nat)
    (hct : ct ∈ ALLOWED_CONTENT_TYPES)
    (hallow : String.mk (((r.contentTypeHeader.getD "").data).takeWhile notSemi)
      ∈ ALLOWED_CONTENT_TYPES)
    (hn : r.contentLengthHeader = some n) :
    (contents.length ≤ 10 * 1024 * 1024 →
        mask_photo_by_upload dec ct contents masks k =
          (Stage.acquire :: (process_image dec contents masks k).1,
            (process_image dec contents masks k).2)) ∧
    (10 * 1024 * 1024 < contents.length →
        mask_photo_by_upload dec ct contents masks k =
          ([Stage.acquire], Outcome.httpErr 413 "Image exceeds maximum size of 10MB")) ∧
    (n ≤ 10 * 1024 * 1024 → fetch_image_from_url r = Outcome.ok r.content) ∧
    (10 * 1024 * 1024 < n →
        fetch_image_from_url r =
          Outcome.httpErr 413 "Image exceeds maximum size of 10MB") := by
  refine ⟨?_, ?_, ?_, ?_⟩
  · intro hle
    unfold mask_photo_by_upload
    rw [if_pos hct,
      if_neg (fun hc => absurd ((sizeMB_gt_iff _).mp hc) (not_lt.mpr hle))]
  · intro hgt
    unfold mask_photo_by_upload
    rw [if_pos hct, if_pos ((sizeMB_gt_iff _).mpr hgt)]
  · intro hle
    unfold fetch_image_from_url
    rw [if_pos hallow, hn]
    dsimp only
    rw [if_neg (fun hc => absurd ((sizeMB_gt_iff n).mp hc) (not_lt.mpr hle))]
  · intro hgt
    unfold fetch_image_from_url
    rw [if_pos hallow, hn]
    dsimp only
    rw [if_pos ((sizeMB_gt_iff n).mpr hgt)]

/-- C10 witness: a payload of exactly 10 MiB passes the size check and is
processed on the upload path, and a declared content-length of exactly
10 MiB passes on the URL path. -/
theorem size_limit_boundary_exclusive_witness :
    mask_photo_by_upload decW1 "image/png" boundaryBody [] 0 =
      (Stage.acquire :: (process_image decW1 boundaryBody [] 0).1,
        (process_image decW1 boundaryBody [] 0).2) ∧
    fetch_image_from_url boundaryResp = Outcome.ok boundaryResp.content := by
  have h := size_limit_boundary_exclusive decW1 "image/png" boundaryBody [] 0
    boundaryResp (10 * 1024 * 1024) (by decide) (by decide) rfl
  exact ⟨h.1 (by simp only [boundaryBody, List.length_replicate]; omega),
    h.2.2.1 (le_refl _)⟩

end PhotoMask
